import Mathlib

/-!
Verification of the srtgo reservation tool against its specification.

The development shallowly embeds the two core components of the repository:

* `srtgo/srtgo.py` — the reservation acquisition engine: the seat-availability
  predicate `_is_seat_available`, the passenger-count gate and the polling loop
  of `reserve` with its exception handlers (`_handle_error`, `_sleep`).
* `srtgo/secure_storage.py` — the `SecureStorage` class: PBKDF2 key
  derivation, the fingerprint (`.key`) file, AES-GCM-encrypted persistence of
  the JSON-serialised configuration, and the `get`/`set`/`delete` operations.

Modelling conventions:

* Python dictionaries `{service: {key: value}}` are modelled as insertion-
  ordered association lists (`Config`), mirroring dict semantics: lookup finds
  the first occurrence, update rewrites in place, insert appends.
* `json.dumps(..., ensure_ascii=False)` and the subset of `json.loads` needed
  for files this program writes are modelled character-exactly over
  `List Char` (escape table of CPython's json module, `", "` / `": "`
  separators).  The model parser accepts exactly the serialiser's output
  format; CPython's parser is more lenient, which is irrelevant here because
  every persisted file is produced by the serialiser.
* Byte strings are modelled at codepoint granularity: `encode` maps each
  character to its codepoint, `decodeBytes` fails on values that are not
  valid codepoints.  AES-GCM in CTR mode is a stream cipher, modelled as a
  XOR with an arbitrary keystream determined by key and nonce; the source
  (`SecureStorage.save`/`load`) never writes nor verifies the GCM tag, so
  decryption is exactly this XOR.
* Interactive prompts (`getpass`), random nonces, search results, reservation
  outcomes, notification outcomes and user confirmations are inputs supplied
  by the environment.
-/

/- ====================================================================
   §1  Seat predicate (`_is_seat_available`, srtgo.py lines 738-754)
   ==================================================================== -/

/-- Seat-class preference.  `SeatType` (SRT) and `ReserveOption` (Korail) are
distinct Python enums with the same four members; the predicate only ever
compares a value against members of the enum matching `rail_type`, so a single
type models both. -/
inductive SeatPref
  | generalFirst
  | generalOnly
  | specialFirst
  | specialOnly
deriving DecidableEq, Repr

/-- Modelled from the spec: the train candidate returned by the rail client
(classes in `srtgo/srt.py` and `srtgo/ktx.py`, which are not under `src/`).
Per §3 of the spec, "only its availability-by-class fields are inspected by
SeatPredicate": general-class seat availability, special-class seat
availability, and waiting-list capacity. -/
structure Train where
  general : Bool
  special : Bool
  waiting : Bool
deriving DecidableEq, Repr

/-- Modelled from the spec: `seat_available()` / `has_seat()` — some class
(general or special) has a seat. -/
def Train.seat_available (t : Train) : Bool := t.general || t.special

/-- Modelled from the spec: `general_seat_available()` / `has_general_seat()`. -/
def Train.general_seat_available (t : Train) : Bool := t.general

/-- Modelled from the spec: `special_seat_available()` / `has_special_seat()`. -/
def Train.special_seat_available (t : Train) : Bool := t.special

/-- Modelled from the spec: `reserve_standby_available()` / `has_waiting_list()`
— waiting-list capacity exists. -/
def Train.reserve_standby_available (t : Train) : Bool := t.waiting

/-- Embedding of `_is_seat_available(train, seat_type, rail_type)`
(srtgo.py 738-754).  The SRT and Korail branches call differently named
accessors of the respective train classes; both are modelled by the same
`Train` accessors. -/
def is_seat_available (train : Train) (seat_type : SeatPref) (rail_type : String) : Bool :=
  if rail_type == "SRT" then
    if !train.seat_available then train.reserve_standby_available
    else if seat_type == .generalFirst || seat_type == .specialFirst then train.seat_available
    else if seat_type == .generalOnly then train.general_seat_available
    else train.special_seat_available
  else
    if !train.seat_available then train.reserve_standby_available
    else if seat_type == .generalFirst || seat_type == .specialFirst then train.seat_available
    else if seat_type == .generalOnly then train.general_seat_available
    else train.special_seat_available

/-- The decision table of spec §4.2, written from the spec's words:
no seat in any class → waiting-list capacity decides; `*_FIRST` → any class;
`GENERAL_ONLY` → general class; `SPECIAL_ONLY` → special class. -/
def seatDecisionTable (train : Train) (pref : SeatPref) : Bool :=
  if !(train.general || train.special) then train.waiting
  else
    match pref with
    | .generalFirst => true
    | .specialFirst => true
    | .generalOnly => train.general
    | .specialOnly => train.special

/- ====================================================================
   §2  Configuration dictionaries
   (Python `{service: {key: value}}` dicts, secure_storage.py)
   ==================================================================== -/

/-- Insertion-ordered association list modelling a Python `dict` with string
keys: lookup finds the first (and, as maintained by `dict`, only) binding,
update rewrites in place, insertion appends. -/
def dGet {α : Type} (d : List (String × α)) (k : String) : Option α :=
  match d with
  | [] => none
  | (k', v) :: rest => if k' = k then some v else dGet rest k

/-- `d[k] = v` on a Python dict: overwrite the existing binding in place, or
append a new one. -/
def dSet {α : Type} (d : List (String × α)) (k : String) (v : α) : List (String × α) :=
  match d with
  | [] => [(k, v)]
  | (k', v') :: rest => if k' = k then (k', v) :: rest else (k', v') :: dSet rest k v

/-- `del d[k]` on a Python dict: remove the binding. -/
def dDel {α : Type} (d : List (String × α)) (k : String) : List (String × α) :=
  match d with
  | [] => []
  | (k', v') :: rest => if k' = k then rest else (k', v') :: dDel rest k

/-- The decrypted configuration snapshot `{service: {key: value}}`. -/
abbrev Config : Type := List (String × List (String × String))

/-- `SecureStorage.get` body (after the lazy load): `config.get(service, {})`
then `.get(key, default)` with `default=None`. -/
def cfgGet (cfg : Config) (service key : String) : Option String :=
  match dGet cfg service with
  | none => none
  | some inner => dGet inner key

/-- `SecureStorage.set` body (after the lazy load): `if service not in
self.config: self.config[service] = {}` followed by
`self.config[service][key] = value`. -/
def cfgSet (cfg : Config) (service key value : String) : Config :=
  match dGet cfg service with
  | none => List.append cfg [(service, dSet [] key value)]
  | some inner => dSet cfg service (dSet inner key value)

/-- `service in self.config and key in self.config[service]`
(`SecureStorage.delete`). -/
def cfgHasPair (cfg : Config) (service key : String) : Bool :=
  match dGet cfg service with
  | none => false
  | some inner => (dGet inner key).isSome

/-- `del self.config[service][key]` (`SecureStorage.delete`), only reached
when the pair is present. -/
def cfgDel (cfg : Config) (service key : String) : Config :=
  match dGet cfg service with
  | none => cfg
  | some inner => dSet cfg service (dDel inner key)

/- ====================================================================
   §3  JSON serialisation (`json.dumps(config, ensure_ascii=False)`)
   and the parser for its output format (`json.loads`)
   ==================================================================== -/

/-- Lowercase hex digit, as produced by CPython's json encoder in `\u00xx`
escapes. -/
def hexDigitChar (n : Nat) : Char :=
  if n < 10 then Char.ofNat (48 + n) else Char.ofNat (87 + n)

/-- CPython json escape table (`ESCAPE_DCT`): `"` and `\` are escaped, the
named control escapes `\n \r \t \b \f` are used, every other control
character becomes `\u00xx`; with `ensure_ascii=False` all other characters
pass through unchanged. -/
def escapeChar (c : Char) : List Char :=
  if c = '"' then ['\\', '"']
  else if c = '\\' then ['\\', '\\']
  else if c = '\n' then ['\\', 'n']
  else if c = '\r' then ['\\', 'r']
  else if c = '\t' then ['\\', 't']
  else if c.toNat = 8 then ['\\', 'b']
  else if c.toNat = 12 then ['\\', 'f']
  else if c.toNat < 32 then
    ['\\', 'u', '0', '0', hexDigitChar (c.toNat / 16), hexDigitChar (c.toNat % 16)]
  else [c]

def escapeList : List Char → List Char
  | [] => []
  | c :: rest => escapeChar c ++ escapeList rest

/-- A JSON string literal: `"` + escaped content + `"`. -/
def dumpString (s : String) : List Char :=
  '"' :: (escapeList s.data ++ ['"'])

/-- Value of a hex digit character. -/
def hexVal? (c : Char) : Option Nat :=
  if 48 ≤ c.toNat ∧ c.toNat ≤ 57 then some (c.toNat - 48)
  else if 97 ≤ c.toNat ∧ c.toNat ≤ 102 then some (c.toNat - 87)
  else if 65 ≤ c.toNat ∧ c.toNat ≤ 70 then some (c.toNat - 55)
  else none

/-- Codepoint to character, failing on invalid codepoints (surrogates and
out-of-range values). -/
def mkChar? (n : Nat) : Option Char :=
  if h : n.isValidChar then some (Char.ofNatAux n h) else none

def unescape1 (e : Char) : Option Char :=
  if e = '"' then some '"'
  else if e = '\\' then some '\\'
  else if e = 'n' then some '\n'
  else if e = 'r' then some '\r'
  else if e = 't' then some '\t'
  else if e = 'b' then some (Char.ofNat 8)
  else if e = 'f' then some (Char.ofNat 12)
  else none

/-- Parse the body of a JSON string literal (after the opening quote), up to
and including the closing quote; returns the decoded content and the rest of
the input. -/
def parseStringBody : List Char → Option (List Char × List Char)
  | [] => none
  | c :: rest =>
    if c = '"' then some ([], rest)
    else if c = '\\' then
      match rest with
      | [] => none
      | e :: rest2 =>
        if e = 'u' then
          match rest2 with
          | h1 :: h2 :: h3 :: h4 :: rest3 =>
            match hexVal? h1, hexVal? h2, hexVal? h3, hexVal? h4 with
            | some a, some b, some c2, some d =>
              match mkChar? (a * 4096 + b * 256 + c2 * 16 + d) with
              | some ch =>
                match parseStringBody rest3 with
                | some (s, r) => some (ch :: s, r)
                | none => none
              | none => none
            | _, _, _, _ => none
          | _ => none
        else
          match unescape1 e with
          | some ch =>
            match parseStringBody rest2 with
            | some (s, r) => some (ch :: s, r)
            | none => none
          | none => none
    else
      match parseStringBody rest with
      | some (s, r) => some (c :: s, r)
      | none => none

/-- Parse a JSON string literal. -/
def parseJsonString (l : List Char) : Option (List Char × List Char) :=
  match l with
  | [] => none
  | c :: rest => if c = '"' then parseStringBody rest else none

/-- Inner dict entries, joined by `", "` as CPython's json encoder does with
the default separators. -/
def dumpInnerPairs : List (String × String) → List Char
  | [] => []
  | [(k, v)] => dumpString k ++ ':' :: ' ' :: dumpString v
  | (k, v) :: p :: rest =>
    dumpString k ++ ':' :: ' ' :: (dumpString v ++ ',' :: ' ' :: dumpInnerPairs (p :: rest))

/-- `json.dumps` of an inner `{key: value}` dict. -/
def dumpInnerDict (d : List (String × String)) : List Char :=
  '{' :: (dumpInnerPairs d ++ ['}'])

def dumpOuterPairs : Config → List Char
  | [] => []
  | [(k, d)] => dumpString k ++ ':' :: ' ' :: dumpInnerDict d
  | (k, d) :: p :: rest =>
    dumpString k ++ ':' :: ' ' :: (dumpInnerDict d ++ ',' :: ' ' :: dumpOuterPairs (p :: rest))

/-- `json.dumps(self.config, ensure_ascii=False)` (`SecureStorage.save`),
character-exact for the two-level string dict shape the program stores. -/
def jsonDumps (cfg : Config) : List Char :=
  '{' :: (dumpOuterPairs cfg ++ ['}'])

/-- Parser for a non-empty inner pair sequence followed by `'}'`.  The fuel
argument only serves termination; `jsonLoads` passes the input length, which
is always sufficient. -/
def parseInnerPairs : Nat → List Char → Option (List (String × String) × List Char)
  | 0, _ => none
  | fuel + 1, l =>
    match parseJsonString l with
    | none => none
    | some (k, r1) =>
      match r1 with
      | ':' :: ' ' :: r2 =>
        match parseJsonString r2 with
        | none => none
        | some (v, r3) =>
          match r3 with
          | '}' :: r4 => some ([(⟨k⟩, ⟨v⟩)], r4)
          | ',' :: ' ' :: r5 =>
            match parseInnerPairs fuel r5 with
            | some (ps, r6) => some ((⟨k⟩, ⟨v⟩) :: ps, r6)
            | none => none
          | _ => none
      | _ => none

/-- Parser for an inner dict (including the braces). -/
def parseInnerDict (fuel : Nat) (l : List Char) : Option (List (String × String) × List Char) :=
  match l with
  | '{' :: '}' :: r2 => some ([], r2)
  | '{' :: rest => parseInnerPairs fuel rest
  | _ => none

def parseOuterPairs : Nat → List Char → Option (Config × List Char)
  | 0, _ => none
  | fuel + 1, l =>
    match parseJsonString l with
    | none => none
    | some (k, r1) =>
      match r1 with
      | ':' :: ' ' :: r2 =>
        match parseInnerDict fuel r2 with
        | none => none
        | some (d, r3) =>
          match r3 with
          | '}' :: r4 => some ([(⟨k⟩, d)], r4)
          | ',' :: ' ' :: r5 =>
            match parseOuterPairs fuel r5 with
            | some (ps, r6) => some ((⟨k⟩, d) :: ps, r6)
            | none => none
          | _ => none
      | _ => none

/-- `json.loads` (`SecureStorage.load`), for the output format of the
serialiser above.  Inputs this program never produces (other JSON values,
extra whitespace, trailing data) are rejected; CPython would accept some of
them, but every file read back was written by `jsonDumps`. -/
def jsonLoads (l : List Char) : Option Config :=
  match l with
  | '{' :: '}' :: r2 => if r2 = [] then some [] else none
  | '{' :: rest =>
    match parseOuterPairs l.length rest with
    | some (cfg, r) => if r = [] then some cfg else none
    | none => none
  | _ => none

/-- Fuel needed by `parseOuterPairs`: one unit per outer pair plus one per
inner pair. -/
def jsonWeight (ps : Config) : Nat :=
  ps.length + (ps.map (fun p => p.2.length)).sum

/- ====================================================================
   §4  Bytes and the cipher (`config_json.encode(ENCODING)`,
   `AES.new(key, AES.MODE_GCM)` in `SecureStorage.save`/`load`)
   ==================================================================== -/

/-- `str.encode('utf-8')`, modelled at codepoint granularity: one "byte" per
character.  This keeps the encoding injective and position-respecting, which
is all the stream cipher below interacts with. -/
def encode (l : List Char) : List Nat := l.map Char.toNat

/-- `bytes.decode('utf-8')`, the inverse of `encode`; fails on values that are
not valid codepoints (modelling `UnicodeDecodeError`, which
`SecureStorage.load` catches). -/
def decodeBytes : List Nat → Option (List Char)
  | [] => some []
  | b :: rest =>
    match mkChar? b with
    | none => none
    | some c =>
      match decodeBytes rest with
      | some cs => some (c :: cs)
      | none => none

/-- The CTR keystream XOR performed by AES-GCM on the content bytes, starting
at pad position `i`.  `cipher.encrypt` and `cipher.decrypt` are both exactly
this operation for a given key and nonce: `SecureStorage.save` never appends
the GCM authentication tag (`cipher.digest()` is never called) and
`SecureStorage.load` uses `cipher.decrypt`, not `decrypt_and_verify`, so no
authentication ever takes place. -/
def ctrXor (ks : Nat → Nat) : Nat → List Nat → List Nat
  | _, [] => []
  | i, b :: rest => (b ^^^ ks i) :: ctrXor ks (i + 1) rest

/-- `cipher.encrypt(data)` / `cipher.decrypt(data)` for the keystream `ks`
determined by the key and the nonce. -/
def gcmApply (ks : Nat → Nat) (data : List Nat) : List Nat := ctrXor ks 0 data

/-- Flip bits `delta` of the byte at index `j` (identity when `j` is out of
range). -/
def flipAt : Nat → Nat → List Nat → List Nat
  | _, _, [] => []
  | 0, delta, b :: rest => (b ^^^ delta) :: rest
  | j + 1, delta, b :: rest => b :: flipAt j delta rest

/- ====================================================================
   §5  SecureStorage (secure_storage.py)
   ==================================================================== -/

/-- The fixed salt `b'srtgo-salt'` of `SecureStorage._derive_key`. -/
def srtgoSalt : String := "srtgo-salt"

/-- The fixed iteration count of `SecureStorage._derive_key`. -/
def pbkdf2Iterations : Nat := 100000

/-- Abstract model of the cryptographic primitives used by secure_storage.py.
The primitives themselves live in `hashlib`/`pycryptodome`, outside this
repository; they enter the embedding as opaque deterministic functions, which
is exactly what the storage code relies on. -/
structure CryptoModel where
  /-- `hashlib.pbkdf2_hmac('sha256', password, salt, iterations)`:
  password, salt, iteration count ↦ derived key. -/
  pbkdf2 : String → String → Nat → String
  /-- `hashlib.sha256(key).hexdigest()`. -/
  sha256Hex : String → String
  /-- The AES-CTR keystream of `AES.new(key, AES.MODE_GCM, nonce=nonce)`:
  key, nonce, byte position ↦ pad byte. -/
  keystream : String → List Nat → Nat → Nat

/-- The state of one `SecureStorage` instance: `self.master_password`,
`self.encryption_key`, `self.config`.  (`self._last_password` is only read by
`_try_load_key`, which a fresh instance reaches before ever setting it, so it
is not modelled.) -/
structure Store where
  master_password : Option String
  encryption_key : Option String
  config : Config
deriving DecidableEq

/-- The two files owned by the storage: `CONFIG_FILE` (bytes: nonce plus
ciphertext) and `KEY_FILE` (text: the fingerprint hexdigest). -/
structure World where
  configFile : Option (List Nat)
  keyFile : Option String
deriving DecidableEq

/-- `SecureStorage._is_initialized`. -/
def is_initialized (w : World) : Bool := w.configFile.isSome && w.keyFile.isSome

/-- `SecureStorage._derive_key`: `None` for a falsy password, otherwise
PBKDF2-HMAC-SHA256 with the fixed salt and iteration count. -/
def derive_key (cm : CryptoModel) (password : String) : Option String :=
  if password = "" then none
  else some (cm.pbkdf2 password srtgoSalt pbkdf2Iterations)

/-- `SecureStorage._save_key_hash`: write the hexdigest of the derived key —
and nothing else — to `KEY_FILE`. -/
def save_key_hash (cm : CryptoModel) (st : Store) (w : World) : World × Bool :=
  match st.encryption_key with
  | none => (w, false)
  | some key => ({ w with keyFile := some (cm.sha256Hex key) }, true)

/-- `SecureStorage._verify_key`: compare the stored fingerprint with the
hexdigest of the current key. -/
def verify_key (cm : CryptoModel) (st : Store) (w : World) : Bool :=
  match st.encryption_key with
  | none => false
  | some key =>
    match w.keyFile with
    | none => false
    | some stored => stored.trim == cm.sha256Hex key

/-- `SecureStorage.load`: returns the loaded configuration and the store as
mutated (`self.config` is assigned only on full success; every failure is
caught and `DEFAULT_CONFIG.copy()` — the empty dict — is returned with
`self.config` untouched). -/
def load (cm : CryptoModel) (st : Store) (w : World) : Store × Config :=
  match st.encryption_key, w.configFile with
  | none, _ => (st, [])
  | some _, none => (st, [])
  | some key, some fileBytes =>
    let nonce := fileBytes.take 16
    let ciphertext := fileBytes.drop 16
    let decrypted := gcmApply (cm.keystream key nonce) ciphertext
    match decodeBytes decrypted with
    | none => (st, [])
    | some chars =>
      match jsonLoads chars with
      | none => (st, [])
      | some cfg => ({ st with config := cfg }, cfg)

/-- `SecureStorage.save`: serialise, encrypt under a fresh random
`nonce` (supplied by the environment), and write `nonce || ciphertext`.
No GCM tag is produced. -/
def save (cm : CryptoModel) (nonce : List Nat) (st : Store) (w : World) : World × Bool :=
  match st.encryption_key with
  | none => (w, false)
  | some key =>
    let data := encode (jsonDumps st.config)
    let ciphertext := gcmApply (cm.keystream key nonce) data
    ({ w with configFile := some (nonce ++ ciphertext) }, true)

/-- The lazy reload both `get`, `set` and `delete` start with:
`if not self.config: self.load()`. -/
def lazyLoad (cm : CryptoModel) (st : Store) (w : World) : Store :=
  if st.config.isEmpty then (load cm st w).1 else st

/-- `SecureStorage.get` (with `default=None`). -/
def getOp (cm : CryptoModel) (st : Store) (w : World) (service key : String) :
    Store × Option String :=
  let st1 := lazyLoad cm st w
  (st1, cfgGet st1.config service key)

/-- `SecureStorage.set`: mutate the snapshot, then immediately re-encrypt and
rewrite the file; returns the new store, the new world, and `save`'s result. -/
def setOp (cm : CryptoModel) (nonce : List Nat) (st : Store) (w : World)
    (service key value : String) : Store × World × Bool :=
  let st1 := lazyLoad cm st w
  let st2 := { st1 with config := cfgSet st1.config service key value }
  let (w2, ok) := save cm nonce st2 w
  (st2, w2, ok)

/-- `SecureStorage.delete`: delete and save only when the pair is present,
otherwise return `False` without touching anything. -/
def deleteOp (cm : CryptoModel) (nonce : List Nat) (st : Store) (w : World)
    (service key : String) : Store × World × Bool :=
  let st1 := lazyLoad cm st w
  if cfgHasPair st1.config service key then
    let st2 := { st1 with config := cfgDel st1.config service key }
    let (w2, ok) := save cm nonce st2 w
    (st2, w2, ok)
  else (st1, w, false)

/-- One `getpass` round: the next environment-supplied answer (an exhausted
environment answers the empty string). -/
def nextPrompt : List String → String × List String
  | [] => ("", [])
  | p :: rest => (p, rest)

/-- The 3-attempt password loop of `SecureStorage._try_load_key`: empty
answers are skipped (`if not password: continue`), a verifying answer wins,
a non-verifying derived key is kept on `self.encryption_key`. -/
def tryLoadKeyLoop (cm : CryptoModel) (w : World) :
    Store → Nat → List String → Store × Bool × List String
  | st, 0, prompts => (st, false, prompts)
  | st, a + 1, prompts =>
    let (p, rest) := nextPrompt prompts
    if p = "" then tryLoadKeyLoop cm w st a rest
    else
      let st1 := { st with encryption_key := derive_key cm p }
      if verify_key cm st1 w then (st1, true, rest)
      else tryLoadKeyLoop cm w st1 a rest

/-- `SecureStorage._try_load_key` for a fresh instance (no `_last_password`
attribute yet): up to 3 interactive attempts, then fail open with the default
(empty) configuration. -/
def try_load_key (cm : CryptoModel) (st : Store) (w : World) (prompts : List String) :
    Store × Bool × List String :=
  if w.keyFile.isNone then (st, false, prompts)
  else
    let (st1, ok, rest) := tryLoadKeyLoop cm w st 3 prompts
    if ok then (st1, true, rest) else ({ st1 with config := [] }, false, rest)

/-- The `password = provided_password or getpass(...)` line of
`_initial_setup` combined with its `while not password:` reprompt loop:
the first non-empty answer. -/
def promptNonempty : List String → String × List String
  | [] => ("", [])
  | p :: rest => if p = "" then promptNonempty rest else (p, rest)

/-- `SecureStorage._initial_setup`: resolve a non-empty password, ask for
confirmation, and on a match derive the key and persist its fingerprint.
A mismatched confirmation falls back to the default configuration with no
key; an environment with no non-empty answer leaves the store unchanged
(the Python loop would simply never terminate). -/
def initial_setup (cm : CryptoModel) (provided : Option String) (st : Store)
    (w : World) (prompts : List String) : Store × World × List String :=
  let (password, rest) :=
    if provided.getD "" = "" then promptNonempty prompts
    else (provided.getD "", prompts)
  if password = "" then (st, w, rest)
  else
    let (confirm, rest2) := nextPrompt rest
    if password ≠ confirm then ({ st with config := [] }, w, rest2)
    else
      let st1 := { st with encryption_key := derive_key cm password }
      let (w1, _) := save_key_hash cm st1 w
      (st1, w1, rest2)

/-- `SecureStorage.__init__(master_password)`: set up the fields, then — for
an already-initialised store — derive the key directly from a truthy provided
password (no verification), or run the interactive `_try_load_key`; for a
fresh store run `_initial_setup`.  The constructor never raises. -/
def storeInit (cm : CryptoModel) (master_password : Option String) (w : World)
    (prompts : List String) : Store × World × List String :=
  let st0 : Store :=
    { master_password := master_password, encryption_key := none, config := [] }
  if is_initialized w then
    if master_password.getD "" ≠ "" then
      ({ st0 with encryption_key := derive_key cm (master_password.getD "") }, w, prompts)
    else
      let (st1, _, rest) := try_load_key cm st0 w prompts
      (st1, w, rest)
  else
    initial_setup cm master_password st0 w prompts

/- ====================================================================
   §6  Storage claims: concrete instantiations and theorems
   ==================================================================== -/

/-- A concrete instantiation of the abstract primitives, used to evaluate the
model on closed inputs.  The keystream depends on key, nonce and position. -/
def demoCrypto : CryptoModel where
  pbkdf2 := fun p s n => p ++ ":" ++ s ++ ":" ++ toString n
  sha256Hex := fun s => "#" ++ s
  keystream := fun key nonce i => (key.length * 3 + nonce.headD 0 + i * 37 + 11) % 256

def cfgRX : Config := [("r", [("k", "x")])]

def cfgRY : Config := [("r", [("k", "y")])]

def demoNonce16 : List Nat := List.range 16

def cfgUser1 : Config := [("rail", [("id", "user1")])]

def cfgUser2 : Config := [("rail", [("id", "user2")])]

def bytesUser1 : List Nat := encode (jsonDumps cfgUser1)

def bytesUser2 : List Nat := encode (jsonDumps cfgUser2)

/-- An instantiation whose keystream under any key other than `"abc123"`
decrypts the stored ciphertext to the serialisation of `cfgUser2`.  Nothing in
secure_storage.py rules such a keystream out: the ciphertext carries no
authentication tag and the provided-password path never verifies the key, so
the behaviour of the code under this instantiation is reachable. -/
def demoCryptoCollide : CryptoModel where
  pbkdf2 := fun p _ _ => p
  sha256Hex := fun s => "#" ++ s
  keystream := fun key _ i =>
    if key = "abc123" then 0 else (bytesUser1.getD i 0) ^^^ (bytesUser2.getD i 0)

def demoNonceZ : List Nat := List.replicate 16 0

/-- An initialised world holding `{"rail": {"id": "user1"}}` encrypted under
the key derived from `"abc123"`, with the matching fingerprint file. -/
def demoWorldUser1 : World :=
  ⟨some (demoNonceZ ++ gcmApply (demoCryptoCollide.keystream "abc123" demoNonceZ) bytesUser1),
   some (demoCryptoCollide.sha256Hex "abc123")⟩

/- ====================================================================
   §7  The acquisition engine (`reserve`, srtgo.py lines 664-736)
   ==================================================================== -/

/-- Python's substring operator `needle in hay`, on `List Char`. -/
def leadsWith : List Char → List Char → Bool
  | [], _ => true
  | _ :: _, [] => false
  | a :: as2, b :: bs => a == b && leadsWith as2 bs

def subOccursL (needle : List Char) : List Char → Bool
  | [] => leadsWith needle []
  | c :: rest => leadsWith needle (c :: rest) || subOccursL needle rest

/-- `needle in hay` for Python strings. -/
def containsSub (hay needle : String) : Bool := subOccursL needle.data hay.data

/-- `"정상적인 경로로 접근 부탁드립니다" in msg` — the access-pattern flag. -/
def accessPatternMsg : String := "정상적인 경로로 접근 부탁드립니다"

/-- `"로그인 후 사용하십시오" in msg` — the session-expired marker. -/
def reloginMsg : String := "로그인 후 사용하십시오"

/-- The SRT messages treated as "no seat right now" (srtgo.py 696-699). -/
def srtTransientMsgs : List String :=
  ["잔여석없음", "사용자가 많아 접속이 원활하지 않습니다",
   "예약대기 접수가 마감되었습니다", "예약대기자한도수초과"]

/-- The Korail messages treated as "no seat right now" (srtgo.py 705). -/
def korailTransientMsgs : List String := ["Sold out", "잔여석없음", "예약대기자한도수초과"]

/-- The failure raised by a `rail` call, by exception class (and message for
the message-matched classes). -/
inductive RailError
  | srt (msg : String)
  | korail (msg : String)
  | jsonDecode
  | conn
  | other
deriving DecidableEq, Repr

/-- Outcome of one `rail.search_train` call. -/
inductive SearchOutcome
  | ok (trains : List Train)
  | err (e : RailError)
deriving DecidableEq, Repr

/-- The environment of one polling cycle: what the rail backend, the
notification channel and the user do if asked during this cycle. -/
structure CycleEnv where
  /-- Result of this cycle's `rail.search_train`. -/
  search : SearchOutcome
  /-- Whether `rail.reserve` succeeds if attempted this cycle. -/
  reserveOk : Bool
  /-- The exception `rail.reserve` raises when `reserveOk` is false. -/
  reserveErr : RailError
  /-- Whether the notification send inside `_reserve` returns normally. -/
  notifyOk1 : Bool
  /-- Whether the notification send inside `_handle_error` returns normally. -/
  notifyOk2 : Bool
  /-- The user's answer to `inquirer.confirm("계속할까요")`. -/
  confirmContinue : Bool
  /-- `rail.is_login` after the re-login in the session-expired branch. -/
  reloginOk : Bool
deriving DecidableEq, Repr

/-- Observable actions of one engine run. -/
inductive Event
  | search
  | reserveAttempt (i : Nat)
  | reserveSuccess
  | notifySent
  | notifyFailed
  | errorShown
  | prompt (answer : Bool)
  | sessionClear
  | relogin
  | sleep
deriving DecidableEq, Repr

/-- How a run ends. -/
inductive RunResult
  | success
  | aborted
  | crashed
  | outOfFuel
deriving DecidableEq, Repr

/-- `_handle_error` (srtgo.py 731-736): print the message, send it through
the notification collaborator — itself unguarded, so a failing send raises
out of the handler — then ask the user whether to continue. -/
def handleErrorCall (c : CycleEnv) : List Event × Option Bool :=
  if c.notifyOk2 then
    ([Event.errorShown, Event.notifySent, Event.prompt c.confirmContinue],
     some c.confirmContinue)
  else ([Event.errorShown, Event.notifyFailed], none)

/-- The `except` clauses of the polling loop (srtgo.py 684-726): given the
raised failure, the events performed and `some result` when the run ends
inside the handler (`none` continues the loop). -/
def dispatchError (e : RailError) (c : CycleEnv) : List Event × Option RunResult :=
  match e with
  | .srt msg =>
    if containsSub msg accessPatternMsg then ([Event.sessionClear, Event.sleep], none)
    else if containsSub msg reloginMsg then
      if c.reloginOk then ([Event.relogin, Event.sleep], none)
      else
        let he := handleErrorCall c
        match he.2 with
        | none => (Event.relogin :: he.1, some RunResult.crashed)
        | some true => (Event.relogin :: (he.1 ++ [Event.sleep]), none)
        | some false => (Event.relogin :: he.1, some RunResult.aborted)
    else if srtTransientMsgs.any (fun p => containsSub msg p) then ([Event.sleep], none)
    else
      let he := handleErrorCall c
      match he.2 with
      | none => (he.1, some RunResult.crashed)
      | some true => (he.1 ++ [Event.sleep], none)
      | some false => (he.1, some RunResult.aborted)
  | .korail msg =>
    if korailTransientMsgs.any (fun p => containsSub msg p) then ([Event.sleep], none)
    else
      let he := handleErrorCall c
      match he.2 with
      | none => (he.1, some RunResult.crashed)
      | some true => (he.1 ++ [Event.sleep], none)
      | some false => (he.1, some RunResult.aborted)
  | .jsonDecode => ([Event.sleep, Event.relogin], none)
  | .conn =>
    let he := handleErrorCall c
    match he.2 with
    | none => (he.1, some RunResult.crashed)
    | some true => (he.1 ++ [Event.relogin], none)
    | some false => (he.1, some RunResult.aborted)
  | .other =>
    let he := handleErrorCall c
    match he.2 with
    | none => (he.1, some RunResult.crashed)
    | some true => (he.1 ++ [Event.relogin], none)
    | some false => (he.1, some RunResult.aborted)

/-- Result of the `for i in choice["trains"]` scan (srtgo.py 678-681):
first selected index whose train satisfies the predicate; `indexError` models
`trains[i]` being out of range, which raises into the generic handler. -/
inductive ScanResult
  | found (i : Nat)
  | noneAvail
  | indexError
deriving DecidableEq, Repr

def scanTrains (pref : SeatPref) (rail_type : String) (trains : List Train) :
    List Nat → ScanResult
  | [] => .noneAvail
  | i :: rest =>
    match trains[i]? with
    | none => .indexError
    | some t =>
      if is_seat_available t pref rail_type then .found i
      else scanTrains pref rail_type trains rest

/-- One iteration of the `while True` polling loop: search, scan the selected
candidates in order, reserve on the first match (`_reserve` prints the
success, (payment disabled for the modelled runs) and then sends the
notification — unguarded, so a raising send falls into `except Exception`),
otherwise sleep; failures go through `dispatchError`. -/
def cycleStep (pref : SeatPref) (rail_type : String) (choice : List Nat)
    (c : CycleEnv) : List Event × Option RunResult :=
  match c.search with
  | .err e => (Event.search :: (dispatchError e c).1, (dispatchError e c).2)
  | .ok trains =>
    match scanTrains pref rail_type trains choice with
    | .noneAvail => ([Event.search, Event.sleep], none)
    | .indexError =>
      (Event.search :: (dispatchError .other c).1, (dispatchError .other c).2)
    | .found i =>
      if c.reserveOk then
        if c.notifyOk1 then
          ([Event.search, Event.reserveAttempt i, Event.reserveSuccess, Event.notifySent],
           some RunResult.success)
        else
          ([Event.search, Event.reserveAttempt i, Event.reserveSuccess, Event.notifyFailed]
             ++ (dispatchError .other c).1,
           (dispatchError .other c).2)
      else
        ([Event.search, Event.reserveAttempt i] ++ (dispatchError c.reserveErr c).1,
         (dispatchError c.reserveErr c).2)

/-- The polling loop over the environment's cycles (ending with `outOfFuel`
when the supplied environment is exhausted — the Python loop itself has no
bound). -/
def runLoop (pref : SeatPref) (rail_type : String) (choice : List Nat) :
    List CycleEnv → List Event × RunResult
  | [] => ([], .outOfFuel)
  | c :: rest =>
    match (cycleStep pref rail_type choice c).2 with
    | some r => ((cycleStep pref rail_type choice c).1, r)
    | none =>
      ((cycleStep pref rail_type choice c).1 ++ (runLoop pref rail_type choice rest).1,
       (runLoop pref rail_type choice rest).2)

/-- The passenger composition entered before polling (srtgo.py 560-577). -/
structure PassengerInfo where
  adult : Nat
  child : Option Nat
  senior : Option Nat
  disability1to3 : Option Nat
  disability4to6 : Option Nat
deriving DecidableEq, Repr

inductive Passenger
  | adult (count : Nat)
  | child (count : Nat)
  | senior (count : Nat)
  | disability1to3 (count : Nat)
  | disability4to6 (count : Nat)
deriving DecidableEq, Repr

/-- One step of the `for k in [...]` loop over the optional passenger types:
`if k in info and info[k] > 0: passengers.append(...); total_count += count`. -/
def addOptionalPassenger (acc : List Passenger × Nat) (entry : Option Nat)
    (mk : Nat → Passenger) : List Passenger × Nat :=
  match entry with
  | none => acc
  | some n => if n > 0 then (acc.1 ++ [mk n], acc.2 + n) else acc

/-- Building `passengers` and `total_count` (srtgo.py 560-577): adults first
when positive, then each optional type present and positive. -/
def buildPassengers (info : PassengerInfo) : List Passenger × Nat :=
  let acc0 : List Passenger × Nat :=
    if info.adult > 0 then ([Passenger.adult info.adult], info.adult) else ([], 0)
  addOptionalPassenger
    (addOptionalPassenger
      (addOptionalPassenger
        (addOptionalPassenger acc0 info.child Passenger.child)
        info.senior Passenger.senior)
      info.disability1to3 Passenger.disability1to3)
    info.disability4to6 Passenger.disability4to6

/-- The run from the passenger-count gate on (srtgo.py 578-683): abort on 0 or
≥ 10 passengers before any network call; otherwise the pre-selection search,
the candidate selection (empty selection aborts) and the polling loop. -/
def reserveRun (info : PassengerInfo) (pref : SeatPref) (rail_type : String)
    (choice : List Nat) (initialTrains : List Train) (env : List CycleEnv) :
    List Event × RunResult :=
  let total := (buildPassengers info).2
  if total = 0 then ([], .aborted)
  else if total ≥ 10 then ([], .aborted)
  else if initialTrains.isEmpty then ([Event.search], .aborted)
  else if choice.isEmpty then ([Event.search], .aborted)
  else
    let (evs, r) := runLoop pref rail_type choice env
    (Event.search :: evs, r)

/- ====================================================================
   §8  Engine claims
   ==================================================================== -/

/-- The part of the trace strictly after the first committed reservation. -/
def eventsAfterFirstSuccess (evs : List Event) : List Event :=
  (evs.dropWhile (fun e => e != Event.reserveSuccess)).tail

/-- "`i` is the first user-selected slot whose train satisfies the seat
predicate": spec-style description of the scan. -/
def IsFirstSatisfying (choice : List Nat) (trains : List Train) (pref : SeatPref)
    (rail_type : String) (i : Nat) : Prop :=
  ∃ pre post, choice = pre ++ i :: post
    ∧ (∃ t, trains[i]? = some t ∧ is_seat_available t pref rail_type = true)
    ∧ ∀ j ∈ pre, ∃ t, trains[j]? = some t ∧ is_seat_available t pref rail_type = false

/-- The failures routed to `_handle_error` by the polling loop's handlers:
SRT errors matching none of the special patterns, Korail errors not marked
transient, connection drops, and everything unclassified. -/
def isUnrecognizedConfirm : RailError → Bool
  | .srt msg =>
    !containsSub msg accessPatternMsg && !containsSub msg reloginMsg
      && !(srtTransientMsgs.any (fun p => containsSub msg p))
  | .korail msg => !(korailTransientMsgs.any (fun p => containsSub msg p))
  | .jsonDecode => false
  | .conn => true
  | .other => true

/- ====================================================================
   Theorems
   ==================================================================== -/

/-- C1: for every candidate and every preference (and either rail type), the
seat predicate agrees with the decision table of spec §4.2, including the
waiting-list fallback when no class has a seat. -/
theorem is_seat_available_matches_table
    (train : Train) (seat_type : SeatPref) (rail_type : String) :
    is_seat_available train seat_type rail_type = seatDecisionTable train seat_type := by
  rcases train with ⟨g, s, w⟩
  unfold is_seat_available seatDecisionTable Train.seat_available
    Train.general_seat_available Train.special_seat_available
    Train.reserve_standby_available
  rcases seat_type <;> cases g <;> cases s <;> cases w <;> simp

theorem dGet_dSet_self {α : Type} (d : List (String × α)) (k : String) (v : α) :
    dGet (dSet d k v) k = some v := by
  induction d with
  | nil => simp [dGet, dSet]
  | cons p rest ih =>
    obtain ⟨k', v'⟩ := p
    by_cases h : k' = k
    · simp [dGet, dSet, h]
    · simp [dGet, dSet, h, ih]

theorem dGet_append_of_none {α : Type} {d : List (String × α)} {k : String}
    (h : dGet d k = none) (l : List (String × α)) :
    dGet (List.append d l) k = dGet l k := by
  induction d with
  | nil => simp
  | cons p rest ih =>
    obtain ⟨k', v'⟩ := p
    by_cases hk : k' = k
    · simp [dGet, hk] at h
    · simp [dGet, hk] at h ⊢
      exact ih h

/-- Reading back the pair just written. -/
theorem cfgGet_cfgSet_self (cfg : Config) (s k v : String) :
    cfgGet (cfgSet cfg s k v) s k = some v := by
  unfold cfgGet cfgSet
  cases h : dGet cfg s with
  | none =>
    rw [dGet_append_of_none h]
    simp [dGet, dSet]
  | some inner =>
    rw [dGet_dSet_self]
    simp [dGet_dSet_self]

theorem cfgSet_ne_nil (cfg : Config) (s k v : String) :
    cfgSet cfg s k v ≠ [] := by
  unfold cfgSet
  cases h : dGet cfg s with
  | none =>
    cases cfg <;> simp [List.append]
  | some inner =>
    have : dGet cfg s ≠ none := by simp [h]
    cases cfg with
    | nil => simp [dGet] at h
    | cons p rest => obtain ⟨k', v'⟩ := p; by_cases hk : k' = s <;> simp [dSet, hk]

theorem hexVal?_hexDigitChar : ∀ x : Nat, x < 16 → hexVal? (hexDigitChar x) = some x := by
  decide

theorem mkChar?_toNat (c : Char) : mkChar? c.toNat = some c := by
  unfold mkChar?
  have hv : c.toNat.isValidChar := c.valid
  rw [dif_pos hv]
  congr 1

/-- Round trip for string bodies: parsing the escaped content followed by a
closing quote recovers the content and the rest. -/
theorem parseStringBody_escape (s : List Char) (rest : List Char) :
    parseStringBody (escapeList s ++ '"' :: rest) = some (s, rest) := by
  induction s with
  | nil =>
    rw [escapeList, List.nil_append, parseStringBody.eq_def]
    simp
  | cons c s ih =>
    show parseStringBody ((escapeChar c ++ escapeList s) ++ '"' :: rest) = _
    rw [List.append_assoc]
    unfold escapeChar
    split_ifs with h1 h2 h3 h4 h5 h6 h7 h8
    · subst h1; rw [List.cons_append, List.cons_append, List.nil_append,
        parseStringBody.eq_def]; simp +decide [unescape1, ih]
    · subst h2; rw [List.cons_append, List.cons_append, List.nil_append,
        parseStringBody.eq_def]; simp +decide [unescape1, ih]
    · subst h3; rw [List.cons_append, List.cons_append, List.nil_append,
        parseStringBody.eq_def]; simp +decide [unescape1, ih]
    · subst h4; rw [List.cons_append, List.cons_append, List.nil_append,
        parseStringBody.eq_def]; simp +decide [unescape1, ih]
    · subst h5; rw [List.cons_append, List.cons_append, List.nil_append,
        parseStringBody.eq_def]; simp +decide [unescape1, ih]
    · -- backspace, \b
      have hc : Char.ofNat 8 = c := by
        rw [← h6, Char.ofNat_toNat]
      rw [List.cons_append, List.cons_append, List.nil_append, parseStringBody.eq_def]
      simp +decide [unescape1, ih]
      exact hc
    · -- formfeed, \f
      have hc : Char.ofNat 12 = c := by
        rw [← h7, Char.ofNat_toNat]
      rw [List.cons_append, List.cons_append, List.nil_append, parseStringBody.eq_def]
      simp +decide [unescape1, ih]
      exact hc
    · -- other control characters, \u00xx
      have hhi : hexVal? (hexDigitChar (c.toNat / 16)) = some (c.toNat / 16) :=
        hexVal?_hexDigitChar _ (by omega)
      have hlo : hexVal? (hexDigitChar (c.toNat % 16)) = some (c.toNat % 16) :=
        hexVal?_hexDigitChar _ (by omega)
      have hval : c.toNat / 16 * 16 + c.toNat % 16 = c.toNat := by
        omega
      have hzero : hexVal? '0' = some 0 := by decide
      simp only [List.cons_append]
      rw [parseStringBody.eq_def]
      simp +decide [hhi, hlo, hzero, hval, mkChar?_toNat, ih]
    · -- ordinary character
      rw [List.cons_append, parseStringBody.eq_def]
      simp [h1, h2, ih]

theorem parseJsonString_dumpString (s : String) (r : List Char) :
    parseJsonString (dumpString s ++ r) = some (s.data, r) := by
  show parseJsonString ('"' :: (escapeList s.data ++ ['"']) ++ r) = _
  rw [List.cons_append, List.append_assoc]
  show parseJsonString ('"' :: (escapeList s.data ++ '"' :: r)) = _
  unfold parseJsonString
  simp [parseStringBody_escape]

theorem string_mk_data (s : String) : (⟨s.data⟩ : String) = s := rfl

theorem dumpInnerPairs_cons_eq (k v : String) (t : List (String × String)) :
    ∃ tl, dumpInnerPairs ((k, v) :: t) = '"' :: tl := by
  cases t with
  | nil =>
    refine ⟨escapeList k.data ++ '"' :: ':' :: ' ' :: '"' :: (escapeList v.data ++ ['"']), ?_⟩
    simp [dumpInnerPairs, dumpString]
  | cons q rest =>
    refine ⟨escapeList k.data ++
      '"' :: ':' :: ' ' :: '"' :: (escapeList v.data ++ '"' :: ',' :: ' ' :: dumpInnerPairs (q :: rest)), ?_⟩
    simp [dumpInnerPairs, dumpString]

theorem dumpOuterPairs_cons_eq (k : String) (d : List (String × String))
    (t : Config) :
    ∃ tl, dumpOuterPairs ((k, d) :: t) = '"' :: tl := by
  cases t with
  | nil =>
    refine ⟨escapeList k.data ++ '"' :: ':' :: ' ' :: dumpInnerDict d, ?_⟩
    simp [dumpOuterPairs, dumpString]
  | cons q rest =>
    refine ⟨escapeList k.data ++
      '"' :: ':' :: ' ' :: (dumpInnerDict d ++ ',' :: ' ' :: dumpOuterPairs (q :: rest)), ?_⟩
    simp [dumpOuterPairs, dumpString]

theorem parseInnerPairs_dump :
    ∀ (ps : List (String × String)) (r : List Char) (fuel : Nat),
      ps ≠ [] → ps.length ≤ fuel →
      parseInnerPairs fuel (dumpInnerPairs ps ++ '}' :: r) = some (ps, r) := by
  intro ps
  induction ps with
  | nil => intro r fuel h _; exact absurd rfl h
  | cons p t ih =>
    intro r fuel _ hlen
    obtain ⟨k, v⟩ := p
    cases fuel with
    | zero => simp at hlen
    | succ f =>
      cases t with
      | nil =>
        simp only [dumpInnerPairs, List.append_assoc, List.cons_append]
        simp [parseInnerPairs, parseJsonString_dumpString, string_mk_data]
      | cons q rest =>
        have hlen' : (q :: rest).length ≤ f := by
          simp only [List.length_cons] at hlen ⊢
          omega
        simp only [dumpInnerPairs, List.append_assoc, List.cons_append]
        simp [parseInnerPairs, parseJsonString_dumpString, string_mk_data,
          List.append_assoc, ih r f (by simp) hlen']

theorem parseInnerDict_dump (d : List (String × String)) (r : List Char)
    (fuel : Nat) (hlen : d.length ≤ fuel) :
    parseInnerDict fuel (dumpInnerDict d ++ r) = some (d, r) := by
  cases d with
  | nil => simp [dumpInnerDict, dumpInnerPairs, parseInnerDict]
  | cons p t =>
    obtain ⟨k, v⟩ := p
    obtain ⟨tl, htl⟩ := dumpInnerPairs_cons_eq k v t
    show parseInnerDict fuel (('{' :: (dumpInnerPairs ((k, v) :: t) ++ ['}'])) ++ r) = _
    rw [List.cons_append, List.append_assoc, List.cons_append, List.nil_append, htl,
      List.cons_append]
    show parseInnerDict fuel ('{' :: ('"' :: (tl ++ '}' :: r))) = _
    have hred : parseInnerDict fuel ('{' :: ('"' :: (tl ++ '}' :: r))) =
        parseInnerPairs fuel ('"' :: (tl ++ '}' :: r)) := rfl
    rw [hred, ← List.cons_append, ← htl]
    exact parseInnerPairs_dump _ _ _ (by simp) hlen

theorem parseOuterPairs_dump :
    ∀ (ps : Config) (r : List Char) (fuel : Nat),
      ps ≠ [] → jsonWeight ps ≤ fuel →
      parseOuterPairs fuel (dumpOuterPairs ps ++ '}' :: r) = some (ps, r) := by
  intro ps
  induction ps with
  | nil => intro r fuel h _; exact absurd rfl h
  | cons p t ih =>
    intro r fuel _ hlen
    obtain ⟨k, d⟩ := p
    cases fuel with
    | zero => simp [jsonWeight] at hlen
    | succ f =>
      have hd : d.length ≤ f := by
        simp [jsonWeight] at hlen
        omega
      cases t with
      | nil =>
        simp only [dumpOuterPairs, List.append_assoc, List.cons_append]
        simp [parseOuterPairs, parseJsonString_dumpString, string_mk_data,
          parseInnerDict_dump d ('}' :: r) f hd]
      | cons q rest =>
        have hlen' : jsonWeight (q :: rest) ≤ f := by
          simp [jsonWeight] at hlen ⊢
          omega
        simp only [dumpOuterPairs, List.append_assoc, List.cons_append]
        simp [parseOuterPairs, parseJsonString_dumpString, string_mk_data,
          List.append_assoc, ih r f (by simp) hlen',
          parseInnerDict_dump d (',' :: ' ' :: (dumpOuterPairs (q :: rest) ++ '}' :: r)) f hd]

theorem dumpString_len (s : String) : 2 ≤ (dumpString s).length := by
  simp [dumpString]

theorem dumpInnerPairs_len (d : List (String × String)) :
    d.length ≤ (dumpInnerPairs d).length := by
  induction d with
  | nil => simp [dumpInnerPairs]
  | cons p t ih =>
    obtain ⟨k, v⟩ := p
    cases t with
    | nil =>
      have := dumpString_len k
      simp [dumpInnerPairs]
      omega
    | cons q rest =>
      have := dumpString_len k
      simp [dumpInnerPairs] at ih ⊢
      omega

theorem dumpInnerDict_len (d : List (String × String)) :
    d.length + 2 ≤ (dumpInnerDict d).length := by
  have := dumpInnerPairs_len d
  simp [dumpInnerDict]
  omega

theorem dumpOuterPairs_weight (ps : Config) :
    jsonWeight ps ≤ (dumpOuterPairs ps).length := by
  induction ps with
  | nil => simp [dumpOuterPairs, jsonWeight]
  | cons p t ih =>
    obtain ⟨k, d⟩ := p
    cases t with
    | nil =>
      have h1 := dumpString_len k
      have h2 := dumpInnerDict_len d
      simp [dumpOuterPairs, jsonWeight]
      omega
    | cons q rest =>
      have h1 := dumpString_len k
      have h2 := dumpInnerDict_len d
      simp [dumpOuterPairs, jsonWeight] at ih ⊢
      omega

/-- The JSON round trip this program relies on: every configuration written by
`SecureStorage.save` parses back to itself. -/
theorem jsonLoads_jsonDumps (cfg : Config) : jsonLoads (jsonDumps cfg) = some cfg := by
  cases cfg with
  | nil => rfl
  | cons p t =>
    obtain ⟨k, d⟩ := p
    obtain ⟨tl, htl⟩ := dumpOuterPairs_cons_eq k d t
    have hshape : jsonDumps ((k, d) :: t) = '{' :: ('"' :: (tl ++ ['}'])) := by
      simp [jsonDumps, htl]
    rw [hshape]
    have hred : jsonLoads ('{' :: ('"' :: (tl ++ ['}']))) =
        (match parseOuterPairs ('{' :: ('"' :: (tl ++ ['}']))).length ('"' :: (tl ++ ['}'])) with
        | some (cfg, r) => if r = [] then some cfg else none
        | none => none) := rfl
    rw [hred]
    have harg : ('"' : Char) :: (tl ++ ['}']) = dumpOuterPairs ((k, d) :: t) ++ '}' :: [] := by
      rw [htl]
      simp
    rw [harg]
    have hfuel : jsonWeight ((k, d) :: t) ≤
        ('{' :: (dumpOuterPairs ((k, d) :: t) ++ '}' :: [])).length := by
      have := dumpOuterPairs_weight ((k, d) :: t)
      simp
      omega
    rw [parseOuterPairs_dump ((k, d) :: t) [] _ (by simp) hfuel]
    simp

theorem decodeBytes_encode (l : List Char) : decodeBytes (encode l) = some l := by
  induction l with
  | nil => rfl
  | cons c rest ih =>
    have ih' : decodeBytes (List.map Char.toNat rest) = some rest := ih
    simp [encode, decodeBytes, mkChar?_toNat, ih']

theorem xor_xor_cancel (b k : Nat) : (b ^^^ k) ^^^ k = b := by
  rw [Nat.xor_assoc, Nat.xor_self, Nat.xor_zero]

theorem xor_flip_cancel (b k d : Nat) : ((b ^^^ k) ^^^ d) ^^^ k = b ^^^ d := by
  rw [Nat.xor_assoc, Nat.xor_comm d k, ← Nat.xor_assoc (b ^^^ k) k d,
    Nat.xor_assoc b k k, Nat.xor_self, Nat.xor_zero]

theorem ctrXor_ctrXor (ks : Nat → Nat) (i : Nat) (l : List Nat) :
    ctrXor ks i (ctrXor ks i l) = l := by
  induction l generalizing i with
  | nil => rfl
  | cons b rest ih => simp [ctrXor, xor_xor_cancel, ih]

/-- Decrypting what was encrypted (same key, same nonce) gives the data back. -/
theorem gcmApply_gcmApply (ks : Nat → Nat) (data : List Nat) :
    gcmApply ks (gcmApply ks data) = data := ctrXor_ctrXor ks 0 data

theorem ctrXor_flipAt (ks : Nat → Nat) (j delta : Nat) (i : Nat) (l : List Nat) :
    ctrXor ks i (flipAt j delta (ctrXor ks i l)) = flipAt j delta l := by
  induction l generalizing i j with
  | nil => cases j <;> rfl
  | cons b rest ih =>
    cases j with
    | zero => simp [ctrXor, flipAt, xor_flip_cancel, ctrXor_ctrXor]
    | succ j' => simp [ctrXor, flipAt, xor_xor_cancel, ih]

/-- The core malleability fact: without authentication, flipping a ciphertext
byte flips exactly the corresponding plaintext byte of the decryption. -/
theorem gcmApply_flipAt (ks : Nat → Nat) (j delta : Nat) (data : List Nat) :
    gcmApply ks (flipAt j delta (gcmApply ks data)) = flipAt j delta data :=
  ctrXor_flipAt ks j delta 0 data

theorem load_key_eq (cm : CryptoModel) (st : Store) (w : World) :
    (load cm st w).1.encryption_key = st.encryption_key := by
  unfold load
  split
  · rfl
  · rfl
  · dsimp only
    split
    · rfl
    · split <;> rfl

theorem load_master_eq (cm : CryptoModel) (st : Store) (w : World) :
    (load cm st w).1.master_password = st.master_password := by
  unfold load
  split
  · rfl
  · rfl
  · dsimp only
    split
    · rfl
    · split <;> rfl

theorem lazyLoad_key_eq (cm : CryptoModel) (st : Store) (w : World) :
    (lazyLoad cm st w).encryption_key = st.encryption_key := by
  unfold lazyLoad
  split
  · exact load_key_eq cm st w
  · rfl

theorem lazyLoad_master_eq (cm : CryptoModel) (st : Store) (w : World) :
    (lazyLoad cm st w).master_password = st.master_password := by
  unfold lazyLoad
  split
  · exact load_master_eq cm st w
  · rfl

/-- Loading back a file written by `save` under the same key (the nonce is
read back from the file head) recovers the saved configuration. -/
theorem load_after_save (cm : CryptoModel) (mp : Option String) (key : String)
    (nonce : List Nat) (hnonce : nonce.length = 16) (cfg c0 : Config)
    (kf : Option String) :
    load cm ⟨mp, some key, c0⟩
      ⟨some (nonce ++ gcmApply (cm.keystream key nonce) (encode (jsonDumps cfg))), kf⟩ =
    (⟨mp, some key, cfg⟩, cfg) := by
  unfold load
  simp only [List.take_left' hnonce, List.drop_left' hnonce, gcmApply_gcmApply,
    decodeBytes_encode, jsonLoads_jsonDumps]

theorem isEmpty_false_of_ne_nil {α : Type} {l : List α} (h : l ≠ []) :
    l.isEmpty = false := by
  cases l
  · exact absurd rfl h
  · rfl

/-- Equational description of `setOp` when the (lazily reloaded) store holds a
key: the snapshot gains the pair and the file is rewritten as
`nonce || ciphertext`. -/
theorem setOp_eq (cm : CryptoModel) (nonce : List Nat) (st : Store) (w : World)
    (ns k v : String) (key : String)
    (hkey : (lazyLoad cm st w).encryption_key = some key) :
    setOp cm nonce st w ns k v =
      ({ lazyLoad cm st w with config := cfgSet (lazyLoad cm st w).config ns k v },
       { w with configFile := some (nonce ++ gcmApply (cm.keystream key nonce)
           (encode (jsonDumps (cfgSet (lazyLoad cm st w).config ns k v)))) },
       true) := by
  unfold setOp save
  generalize (lazyLoad cm st w) = s at hkey ⊢
  dsimp only
  rw [hkey]

/-- C4: writing a pair and reading it back returns the written value — in the
same instance, and again after a simulated restart in which a fresh store is
opened with the correct secret (so the pair is decrypted back from the file).
The starting snapshot `cfg` is arbitrary: any prior sequence of set/delete
operations on other pairs only determines which `cfg` the write starts
from. -/
theorem set_then_get_returns_value
    (cm : CryptoModel) (secret : String) (hsecret : secret ≠ "")
    (mp : Option String) (cfg : Config) (w : World) (hkf : w.keyFile.isSome = true)
    (ns k v : String) (nonce : List Nat) (hnonce : nonce.length = 16) :
    (getOp cm (setOp cm nonce ⟨mp, derive_key cm secret, cfg⟩ w ns k v).1
       (setOp cm nonce ⟨mp, derive_key cm secret, cfg⟩ w ns k v).2.1 ns k).2 = some v
    ∧ (setOp cm nonce ⟨mp, derive_key cm secret, cfg⟩ w ns k v).2.2 = true
    ∧ (getOp cm
        (storeInit cm (some secret) (setOp cm nonce ⟨mp, derive_key cm secret, cfg⟩ w ns k v).2.1 []).1
        (storeInit cm (some secret) (setOp cm nonce ⟨mp, derive_key cm secret, cfg⟩ w ns k v).2.1 []).2.1
        ns k).2 = some v := by
  have hkeyeq : derive_key cm secret = some (cm.pbkdf2 secret srtgoSalt pbkdf2Iterations) := by
    simp [derive_key, hsecret]
  have hlz : (lazyLoad cm ⟨mp, derive_key cm secret, cfg⟩ w).encryption_key
      = some (cm.pbkdf2 secret srtgoSalt pbkdf2Iterations) := by
    rw [lazyLoad_key_eq]
    exact hkeyeq
  rw [setOp_eq cm nonce _ w ns k v _ hlz]
  generalize lazyLoad cm (⟨mp, derive_key cm secret, cfg⟩ : Store) w = s at hlz ⊢
  dsimp only
  refine ⟨?_, rfl, ?_⟩
  · -- same-instance get
    unfold getOp lazyLoad
    dsimp only
    rw [isEmpty_false_of_ne_nil (cfgSet_ne_nil s.config ns k v)]
    exact cfgGet_cfgSet_self _ ns k v
  · -- restart with the correct secret
    have hinit : storeInit cm (some secret)
        ({ w with configFile := some (nonce ++
            gcmApply (cm.keystream (cm.pbkdf2 secret srtgoSalt pbkdf2Iterations) nonce)
            (encode (jsonDumps (cfgSet s.config ns k v)))) }) [] =
        ((⟨some secret, derive_key cm secret, []⟩ : Store),
         { w with configFile := some (nonce ++
            gcmApply (cm.keystream (cm.pbkdf2 secret srtgoSalt pbkdf2Iterations) nonce)
            (encode (jsonDumps (cfgSet s.config ns k v)))) }, []) := by
      unfold storeInit
      have hii : is_initialized
          ({ w with configFile := some (nonce ++
              gcmApply (cm.keystream (cm.pbkdf2 secret srtgoSalt pbkdf2Iterations) nonce)
              (encode (jsonDumps (cfgSet s.config ns k v)))) }) = true := by
        simp [is_initialized, hkf]
      rw [hii]
      simp [hsecret]
    rw [hinit]
    unfold getOp lazyLoad
    dsimp only
    rw [show (([] : Config).isEmpty) = true from rfl]
    rw [hkeyeq]
    rw [load_after_save cm (some secret) (cm.pbkdf2 secret srtgoSalt pbkdf2Iterations) nonce hnonce
      (cfgSet s.config ns k v) [] w.keyFile]
    exact cfgGet_cfgSet_self _ ns k v

/-- C2 (the code against the claim): the persisted format carries no
authentication.  `save` writes `nonce || ciphertext` without ever calling
`cipher.digest()`, and `load` decrypts with `cipher.decrypt` instead of
`decrypt_and_verify`.  Concretely, flipping one ciphertext byte (position 13,
low bit) of a stored `{"r": {"k": "x"}}` makes `load` SUCCEED and return the
garbage configuration `{"r": {"k": "y"}}` — not the `ConfigCorrupt` /
fail-to-default path the claim requires for every single-byte corruption. -/
theorem tampered_ciphertext_decodes_to_garbage :
    (load demoCrypto ⟨some "abc123", derive_key demoCrypto "abc123", []⟩
       ⟨some (demoNonce16 ++ flipAt 13 1 (gcmApply (demoCrypto.keystream
          (demoCrypto.pbkdf2 "abc123" srtgoSalt pbkdf2Iterations) demoNonce16)
          (encode (jsonDumps cfgRX)))), some "fp"⟩).2 = cfgRY
    ∧ cfgRY ≠ cfgRX
    ∧ cfgRY ≠ [] := by
  decide

/-- C3 (counterexample): opening an already-initialised store with the wrong
secret does not fail — `__init__` derives the key from the provided password
without ever calling `_verify_key` — and a subsequent `get` can even return
well-formed garbage, because the wrong-key decryption is unauthenticated.
With the correct secret the same store returns the stored value. -/
theorem open_wrong_secret_counterexample :
    (storeInit demoCryptoCollide (some "wrong") demoWorldUser1 []).1.encryption_key
      = some "wrong"
    ∧ (getOp demoCryptoCollide (storeInit demoCryptoCollide (some "wrong") demoWorldUser1 []).1
        demoWorldUser1 "rail" "id").2 = some "user2"
    ∧ (getOp demoCryptoCollide (storeInit demoCryptoCollide (some "abc123") demoWorldUser1 []).1
        demoWorldUser1 "rail" "id").2 = some "user1"
    ∧ some "user2" ≠ some "user1" := by
  decide

/-- `load` mutates `self.config` only on the full-success path, where the
result is the parsed configuration; on every failure path the store is
untouched. -/
theorem load_config_cases (cm : CryptoModel) (st : Store) (w : World) :
    (load cm st w).1.config = st.config ∨ (load cm st w).1.config = (load cm st w).2 := by
  unfold load
  split
  · left; rfl
  · left; rfl
  · dsimp only
    split
    · left; rfl
    · split
      · left; rfl
      · right; rfl

/-- When `load` comes back empty (any of its failure paths, or an empty
stored configuration), a `get` on a store whose snapshot is empty returns the
default `None`. -/
theorem getOp_none_of_load_empty (cm : CryptoModel) (mp : Option String)
    (ek : Option String) (w : World) (ns k : String)
    (hload : (load cm (⟨mp, ek, []⟩ : Store) w).2 = []) :
    (getOp cm (⟨mp, ek, []⟩ : Store) w ns k).2 = none := by
  have h := load_config_cases cm ⟨mp, ek, []⟩ w
  unfold getOp lazyLoad
  dsimp only
  simp only [List.isEmpty_nil, if_true]
  rcases h with h | h
  · rw [h]
    rfl
  · rw [h, hload]
    rfl

/-- C3 (amended): opening an already-initialised store with a provided
(non-empty) secret performs no fingerprint verification and cannot fail: the
constructor returns a live store whose key is derived from whatever secret was
given — identically for any fingerprint file contents.  A wrong key surfaces
only later, at `load` time; whenever that (unauthenticated) decryption fails
to decode or parse, `load` comes back empty and `get` returns only the
default `None`. -/
theorem open_with_secret_skips_verification
    (cm : CryptoModel) (secret : String) (w : World) (prompts : List String)
    (hinit : is_initialized w = true) (hs : secret ≠ "") :
    storeInit cm (some secret) w prompts
      = ((⟨some secret, derive_key cm secret, []⟩ : Store), w, prompts)
    ∧ (∀ kf' : Option String, is_initialized ⟨w.configFile, kf'⟩ = true →
        (storeInit cm (some secret) ⟨w.configFile, kf'⟩ prompts).1
          = (storeInit cm (some secret) w prompts).1)
    ∧ (∀ ns k : String,
        (load cm (⟨some secret, derive_key cm secret, []⟩ : Store) w).2 = [] →
        (getOp cm (⟨some secret, derive_key cm secret, []⟩ : Store) w ns k).2 = none) := by
  have hmain : ∀ w' : World, is_initialized w' = true →
      storeInit cm (some secret) w' prompts
        = ((⟨some secret, derive_key cm secret, []⟩ : Store), w', prompts) := by
    intro w' hw'
    unfold storeInit
    rw [hw']
    simp [hs]
  refine ⟨hmain w hinit, ?_, ?_⟩
  · intro kf' hkf'
    rw [hmain w hinit, hmain ⟨w.configFile, kf'⟩ hkf']
  · intro ns k hload
    exact getOp_none_of_load_empty cm (some secret) (derive_key cm secret) w ns k hload

/-- Closed instance of `open_with_secret_skips_verification` at the stored
scenario world: the wrong secret yields a live store with the wrongly derived
key, with all hypotheses discharged on concrete values. -/
theorem open_with_secret_skips_verification_witness :
    storeInit demoCryptoCollide (some "wrong") demoWorldUser1 []
      = ((⟨some "wrong", derive_key demoCryptoCollide "wrong", []⟩ : Store),
         demoWorldUser1, []) :=
  (open_with_secret_skips_verification demoCryptoCollide "wrong" demoWorldUser1 []
    (by decide) (by decide)).1

/-- C8: initialising a fresh store with a non-empty secret (and a matching
confirmation prompt) derives the key with PBKDF2-HMAC-SHA256 under the fixed
application salt `"srtgo-salt"` and the fixed iteration count 100000 (≥ 100k),
and persists to the key file exactly the one-way fingerprint
`sha256(key).hexdigest()` — which is neither the derived key nor the secret
whenever the hash separates them, as a real hash does.  The config file is
untouched by initialisation. -/
theorem initialization_persists_only_fingerprint
    (cm : CryptoModel) (secret : String) (mp : Option String) (w : World)
    (prompts : List String) (hs : secret ≠ "")
    (hconfirm : (nextPrompt prompts).1 = secret) :
    derive_key cm secret = some (cm.pbkdf2 secret srtgoSalt pbkdf2Iterations)
    ∧ pbkdf2Iterations = 100000
    ∧ 100000 ≤ pbkdf2Iterations
    ∧ srtgoSalt = "srtgo-salt"
    ∧ (initial_setup cm (some secret) ⟨mp, none, []⟩ w prompts).2.1.keyFile
        = some (cm.sha256Hex (cm.pbkdf2 secret srtgoSalt pbkdf2Iterations))
    ∧ (initial_setup cm (some secret) ⟨mp, none, []⟩ w prompts).2.1.configFile
        = w.configFile
    ∧ (cm.sha256Hex (cm.pbkdf2 secret srtgoSalt pbkdf2Iterations)
          ≠ cm.pbkdf2 secret srtgoSalt pbkdf2Iterations →
        (initial_setup cm (some secret) ⟨mp, none, []⟩ w prompts).2.1.keyFile
          ≠ some (cm.pbkdf2 secret srtgoSalt pbkdf2Iterations))
    ∧ (cm.sha256Hex (cm.pbkdf2 secret srtgoSalt pbkdf2Iterations) ≠ secret →
        (initial_setup cm (some secret) ⟨mp, none, []⟩ w prompts).2.1.keyFile
          ≠ some secret) := by
  have hkey : derive_key cm secret = some (cm.pbkdf2 secret srtgoSalt pbkdf2Iterations) := by
    simp [derive_key, hs]
  have hnp : nextPrompt prompts = (secret, (nextPrompt prompts).2) := by
    rw [← hconfirm]
  have hsetup : initial_setup cm (some secret) ⟨mp, none, []⟩ w prompts
      = ((⟨mp, derive_key cm secret, []⟩ : Store),
         ⟨w.configFile, some (cm.sha256Hex (cm.pbkdf2 secret srtgoSalt pbkdf2Iterations))⟩,
         (nextPrompt prompts).2) := by
    unfold initial_setup save_key_hash
    simp only [Option.getD_some]
    rw [if_neg hs]
    dsimp only
    rw [if_neg hs, hnp]
    dsimp only
    rw [if_neg (fun h : ¬ secret = secret => h rfl), hkey]
  refine ⟨hkey, rfl, Nat.le_refl _, rfl, ?_, ?_, ?_, ?_⟩
  · rw [hsetup]
  · rw [hsetup]
  · intro hne
    rw [hsetup]
    simp only [ne_eq, Option.some.injEq]
    exact hne
  · intro hne
    rw [hsetup]
    simp only [ne_eq, Option.some.injEq]
    exact hne

/-- Closed instance of `initialization_persists_only_fingerprint`: the key
file after a concrete initialisation holds the fingerprint of the derived key,
with both hypotheses discharged on concrete values. -/
theorem initialization_persists_only_fingerprint_witness :
    (initial_setup demoCrypto (some "s3cret") ⟨some "s3cret", none, []⟩
       (⟨none, none⟩ : World) ["s3cret"]).2.1.keyFile
      = some (demoCrypto.sha256Hex (demoCrypto.pbkdf2 "s3cret" srtgoSalt pbkdf2Iterations)) :=
  (initialization_persists_only_fingerprint demoCrypto "s3cret" (some "s3cret")
    (⟨none, none⟩ : World) ["s3cret"] (by decide) (by decide)).2.2.2.2.1

/-- Closed instance of `set_then_get_returns_value`: writing
`("rail","id") ↦ "user1"` and reading it back in the same instance returns it,
with all hypotheses discharged on concrete values. -/
theorem set_then_get_returns_value_witness :
    (getOp demoCrypto
       (setOp demoCrypto demoNonce16 ⟨none, derive_key demoCrypto "abc123", []⟩
         ⟨none, some "fp"⟩ "rail" "id" "user1").1
       (setOp demoCrypto demoNonce16 ⟨none, derive_key demoCrypto "abc123", []⟩
         ⟨none, some "fp"⟩ "rail" "id" "user1").2.1 "rail" "id").2 = some "user1" :=
  (set_then_get_returns_value demoCrypto "abc123" (by decide) none []
    ⟨none, some "fp"⟩ (by decide) "rail" "id" "user1" demoNonce16 (by decide)).1

/-- C10 (counterexample): `delete` on a pair that is nowhere in the store
(neither in memory nor on disk) returns `False` and leaves the file alone —
but it does NOT leave the in-memory snapshot unchanged: an empty snapshot is
first re-populated by the lazy `load`, so the snapshot changes from `{}` to
the file's contents. -/
theorem delete_missing_pair_counterexample :
    (deleteOp demoCryptoCollide demoNonceZ
       ⟨some "abc123", derive_key demoCryptoCollide "abc123", []⟩
       demoWorldUser1 "x" "y").2.2 = false
    ∧ (deleteOp demoCryptoCollide demoNonceZ
       ⟨some "abc123", derive_key demoCryptoCollide "abc123", []⟩
       demoWorldUser1 "x" "y").2.1 = demoWorldUser1
    ∧ (deleteOp demoCryptoCollide demoNonceZ
       ⟨some "abc123", derive_key demoCryptoCollide "abc123", []⟩
       demoWorldUser1 "x" "y").1.config ≠ ([] : Config) := by
  decide

/-- C10 (amended): after the lazy reload that `delete` (like `get`/`set`)
starts with, deleting an absent pair returns `False` and leaves the store
state and the persisted file exactly as the reload left them; conversely the
file is rewritten only when the pair was present in the (re)loaded
snapshot. -/
theorem delete_missing_pair_amended (cm : CryptoModel) (nonce : List Nat)
    (st : Store) (w : World) (s k : String) :
    (cfgHasPair (lazyLoad cm st w).config s k = false →
      deleteOp cm nonce st w s k = (lazyLoad cm st w, w, false))
    ∧ ((deleteOp cm nonce st w s k).2.1 ≠ w →
      cfgHasPair (lazyLoad cm st w).config s k = true) := by
  constructor
  · intro h
    unfold deleteOp
    dsimp only
    simp only [h, Bool.false_eq_true, if_false]
  · intro hne
    cases hp : cfgHasPair (lazyLoad cm st w).config s k
    · exfalso
      apply hne
      show (deleteOp cm nonce st w s k).2.1 = w
      unfold deleteOp
      dsimp only
      simp only [hp, Bool.false_eq_true, if_false]
    · rfl

/-- Closed instance of `delete_missing_pair_amended`: deleting the absent pair
`("x","y")` returns `False` and changes neither the reloaded snapshot nor the
file. -/
theorem delete_missing_pair_amended_witness :
    deleteOp demoCryptoCollide demoNonceZ
      ⟨some "abc123", derive_key demoCryptoCollide "abc123", []⟩
      demoWorldUser1 "x" "y"
      = (lazyLoad demoCryptoCollide
          ⟨some "abc123", derive_key demoCryptoCollide "abc123", []⟩ demoWorldUser1,
         demoWorldUser1, false) :=
  (delete_missing_pair_amended demoCryptoCollide demoNonceZ
    ⟨some "abc123", derive_key demoCryptoCollide "abc123", []⟩
    demoWorldUser1 "x" "y").1 (by decide)

theorem handleErrorCall_eq (c : CycleEnv) :
    handleErrorCall c
      = ([Event.errorShown, Event.notifySent, Event.prompt c.confirmContinue],
         some c.confirmContinue)
    ∨ handleErrorCall c = ([Event.errorShown, Event.notifyFailed], none) := by
  unfold handleErrorCall
  by_cases h : c.notifyOk2 = true
  · left
    rw [if_pos h]
  · right
    rw [if_neg h]

/-- The error handlers never issue a search. -/
theorem dispatchError_no_search (e : RailError) (c : CycleEnv) :
    Event.search ∉ (dispatchError e c).1 := by
  rcases handleErrorCall_eq c with h | h <;>
    rcases e with msg | msg | _ | _ | _ <;>
    · unfold dispatchError
      rw [h]
      cases c.confirmContinue <;> (repeat' split) <;> simp

/-- The error handlers never commit a reservation. -/
theorem dispatchError_no_success (e : RailError) (c : CycleEnv) :
    Event.reserveSuccess ∉ (dispatchError e c).1 := by
  rcases handleErrorCall_eq c with h | h <;>
    rcases e with msg | msg | _ | _ | _ <;>
    · unfold dispatchError
      rw [h]
      cases c.confirmContinue <;> (repeat' split) <;> simp

/-- The error handlers never attempt a reservation. -/
theorem dispatchError_no_attempt (e : RailError) (c : CycleEnv) (i : Nat) :
    Event.reserveAttempt i ∉ (dispatchError e c).1 := by
  rcases handleErrorCall_eq c with h | h <;>
    rcases e with msg | msg | _ | _ | _ <;>
    · unfold dispatchError
      rw [h]
      cases c.confirmContinue <;> (repeat' split) <;> simp

theorem dropWhile_ne_all {l : List Event} (h : Event.reserveSuccess ∉ l) :
    l.dropWhile (fun e => e != Event.reserveSuccess) = [] := by
  induction l with
  | nil => rfl
  | cons a t ih =>
    have ha : a ≠ Event.reserveSuccess := by
      intro hcontra
      exact h (hcontra ▸ List.mem_cons_self a t)
    have ht : Event.reserveSuccess ∉ t := fun hm => h (List.mem_cons_of_mem a hm)
    simp only [List.dropWhile]
    rw [show ((a != Event.reserveSuccess) = true) from by simp [ha]]
    exact ih ht

theorem eventsAfter_nil_of_no_success {l : List Event}
    (h : Event.reserveSuccess ∉ l) : eventsAfterFirstSuccess l = [] := by
  unfold eventsAfterFirstSuccess
  rw [dropWhile_ne_all h]
  rfl

theorem eventsAfter_append_of_no_success {l1 l2 : List Event}
    (h : Event.reserveSuccess ∉ l1) :
    eventsAfterFirstSuccess (l1 ++ l2) = eventsAfterFirstSuccess l2 := by
  induction l1 with
  | nil => rfl
  | cons a t ih =>
    have ha : a ≠ Event.reserveSuccess := by
      intro hcontra
      exact h (hcontra ▸ List.mem_cons_self a t)
    have ht : Event.reserveSuccess ∉ t := fun hm => h (List.mem_cons_of_mem a hm)
    unfold eventsAfterFirstSuccess at ih ⊢
    simp only [List.cons_append, List.dropWhile]
    rw [show ((a != Event.reserveSuccess) = true) from by simp [ha]]
    exact ih ht

theorem count_le_one_of_none_after (x : Event) (l : List Event)
    (h : x ∉ (l.dropWhile (fun e => e != x)).tail) : l.count x ≤ 1 := by
  induction l with
  | nil => simp
  | cons a t ih =>
    by_cases hax : a = x
    · subst hax
      have hd : (a :: t).dropWhile (fun e => e != a) = a :: t := by
        simp [List.dropWhile]
      rw [hd] at h
      simp only [List.tail_cons] at h
      rw [List.count_cons_self]
      have : t.count a = 0 := List.count_eq_zero.mpr h
      omega
    · have hd : (a :: t).dropWhile (fun e => e != x) = t.dropWhile (fun e => e != x) := by
        simp only [List.dropWhile]
        rw [show ((a != x) = true) from by simp [hax]]
      rw [hd] at h
      rw [List.count_cons_of_ne (fun hh => hax hh.symm)]
      exact ih h

/-- With a notification send that returns normally, a cycle either contains no
committed reservation at all, or is exactly the terminal cycle
search → first-match attempt → reservation → notification, ending the run. -/
theorem cycleStep_success_cases (pref : SeatPref) (rt : String) (choice : List Nat)
    (c : CycleEnv) (h1 : c.notifyOk1 = true) :
    Event.reserveSuccess ∉ (cycleStep pref rt choice c).1
    ∨ (∃ i, cycleStep pref rt choice c
        = ([Event.search, Event.reserveAttempt i, Event.reserveSuccess, Event.notifySent],
           some RunResult.success)) := by
  unfold cycleStep
  cases c.search with
  | err e =>
    left
    intro hmem
    rcases List.mem_cons.mp hmem with h | h
    · exact absurd h.symm (by simp)
    · exact dispatchError_no_success e c h
  | ok trains =>
    cases hscan : scanTrains pref rt trains choice with
    | noneAvail =>
      left
      simp only [hscan]
      simp
    | indexError =>
      left
      simp only [hscan]
      intro hmem
      rcases List.mem_cons.mp hmem with h | h
      · exact absurd h.symm (by simp)
      · exact dispatchError_no_success .other c h
    | found i =>
      simp only [hscan]
      by_cases hro : c.reserveOk = true
      · rw [if_pos hro, if_pos h1]
        right
        exact ⟨i, rfl⟩
      · rw [if_neg hro]
        left
        intro hmem
        rcases List.mem_append.mp hmem with h | h
        · simp at h
        · exact dispatchError_no_success c.reserveErr c h

/-- When every notification send in the environment returns normally, the
trace after the first committed reservation contains no further search and no
further reservation. -/
theorem runLoop_clean_after_success (pref : SeatPref) (rt : String)
    (choice : List Nat) (env : List CycleEnv)
    (hN : ∀ c ∈ env, c.notifyOk1 = true) :
    Event.search ∉ eventsAfterFirstSuccess (runLoop pref rt choice env).1
    ∧ Event.reserveSuccess ∉ eventsAfterFirstSuccess (runLoop pref rt choice env).1 := by
  induction env with
  | nil =>
    constructor <;> simp [runLoop, eventsAfterFirstSuccess, List.dropWhile]
  | cons c rest ih =>
    have h1 : c.notifyOk1 = true := hN c (List.mem_cons_self c rest)
    have hrest : ∀ c' ∈ rest, c'.notifyOk1 = true :=
      fun c' hc' => hN c' (List.mem_cons_of_mem c hc')
    unfold runLoop
    cases hs2 : (cycleStep pref rt choice c).2 with
    | none =>
      simp only [hs2]
      have hnos : Event.reserveSuccess ∉ (cycleStep pref rt choice c).1 := by
        rcases cycleStep_success_cases pref rt choice c h1 with h | ⟨i, hh⟩
        · exact h
        · rw [hh] at hs2
          simp at hs2
      rw [eventsAfter_append_of_no_success hnos]
      exact ih hrest
    | some r =>
      simp only [hs2]
      rcases cycleStep_success_cases pref rt choice c h1 with h | ⟨i, hh⟩
      · constructor <;> rw [eventsAfter_nil_of_no_success h] <;> simp
      · rw [hh]
        have hev : eventsAfterFirstSuccess
            [Event.search, Event.reserveAttempt i, Event.reserveSuccess, Event.notifySent]
            = [Event.notifySent] := rfl
        constructor <;> rw [show ((([Event.search, Event.reserveAttempt i,
          Event.reserveSuccess, Event.notifySent], some RunResult.success) :
          List Event × Option RunResult).1) = [Event.search, Event.reserveAttempt i,
          Event.reserveSuccess, Event.notifySent] from rfl, hev] <;> simp

theorem scanTrains_found (pref : SeatPref) (rt : String) (trains : List Train) :
    ∀ (choice : List Nat) (i : Nat), scanTrains pref rt trains choice = .found i →
    IsFirstSatisfying choice trains pref rt i := by
  intro choice
  induction choice with
  | nil =>
    intro i h
    simp [scanTrains] at h
  | cons j rest ih =>
    intro i h
    unfold scanTrains at h
    cases ht : trains[j]? with
    | none =>
      rw [ht] at h
      exact absurd h (by simp)
    | some t =>
      rw [ht] at h
      dsimp only at h
      by_cases ha : is_seat_available t pref rt = true
      · rw [if_pos ha] at h
        have hij : j = i := by
          cases h
          rfl
        subst hij
        exact ⟨[], rest, rfl, ⟨t, ht, ha⟩, by simp⟩
      · rw [if_neg ha] at h
        obtain ⟨pre, post, hc, hfound, hpre⟩ := ih i h
        refine ⟨j :: pre, post, by rw [hc, List.cons_append], hfound, ?_⟩
        intro x hx
        rcases List.mem_cons.mp hx with hx | hx
        · subst hx
          refine ⟨t, ht, ?_⟩
          cases hb : is_seat_available t pref rt
          · rfl
          · exact absurd hb ha
        · exact hpre x hx

/-- A reservation attempt on index `i` in a cycle whose search returned
`trains` can only come from the scan finding `i` first. -/
theorem attempt_implies_found (pref : SeatPref) (rt : String) (choice : List Nat)
    (c : CycleEnv) (trains : List Train) (i : Nat)
    (hs : c.search = SearchOutcome.ok trains)
    (hmem : Event.reserveAttempt i ∈ (cycleStep pref rt choice c).1) :
    scanTrains pref rt trains choice = .found i := by
  unfold cycleStep at hmem
  rw [hs] at hmem
  dsimp only at hmem
  cases hscan : scanTrains pref rt trains choice with
  | noneAvail =>
    rw [hscan] at hmem
    simp at hmem
  | indexError =>
    rw [hscan] at hmem
    rcases List.mem_cons.mp hmem with h | h
    · exact absurd h.symm (by simp)
    · exact absurd h (dispatchError_no_attempt .other c i)
  | found j =>
    rw [hscan] at hmem
    split_ifs at hmem with hro hn1
    · simp at hmem
      rw [hmem]
    · rcases List.mem_append.mp hmem with h | h
      · simp at h
        rw [h]
      · exact absurd h (dispatchError_no_attempt .other c i)
    · rcases List.mem_append.mp hmem with h | h
      · simp at h
        rw [h]
      · exact absurd h (dispatchError_no_attempt c.reserveErr c i)

/-- C5 (amended): in every run in which the notification send after a
reservation returns normally, at most one reservation is ever committed, no
search is issued after the first committed reservation (nothing but the
success notification follows it), and every reservation attempt targets the
first selected candidate, in the fixed user-chosen order, whose train
satisfies the seat predicate.  (When the post-reservation notification
raises, the exception re-enters the loop's error handling and the run can
resume — see the counterexample.) -/
theorem engine_commits_at_most_one_reservation
    (pref : SeatPref) (rt : String) (choice : List Nat) (env : List CycleEnv)
    (hN : ∀ c ∈ env, c.notifyOk1 = true) :
    (runLoop pref rt choice env).1.count Event.reserveSuccess ≤ 1
    ∧ Event.search ∉ eventsAfterFirstSuccess (runLoop pref rt choice env).1
    ∧ Event.reserveSuccess ∉ eventsAfterFirstSuccess (runLoop pref rt choice env).1
    ∧ (∀ c ∈ env, ∀ (trains : List Train) (i : Nat),
        c.search = SearchOutcome.ok trains →
        Event.reserveAttempt i ∈ (cycleStep pref rt choice c).1 →
        IsFirstSatisfying choice trains pref rt i) := by
  obtain ⟨hsearch, hsucc⟩ := runLoop_clean_after_success pref rt choice env hN
  refine ⟨?_, hsearch, hsucc, ?_⟩
  · exact count_le_one_of_none_after Event.reserveSuccess _ hsucc
  · intro c _ trains i hs hmem
    exact scanTrains_found pref rt trains choice i
      (attempt_implies_found pref rt choice c trains i hs hmem)

/-- Closed instance of `engine_commits_at_most_one_reservation` on a
successful two-cycle environment with working notifications. -/
theorem engine_commits_at_most_one_reservation_witness :
    (runLoop SeatPref.generalFirst "SRT" [0]
      [⟨SearchOutcome.ok [⟨false, false, false⟩], false, RailError.other, true, true, true, true⟩,
       ⟨SearchOutcome.ok [⟨true, false, false⟩], true, RailError.other, true, true, true, true⟩]).1.count
      Event.reserveSuccess ≤ 1 :=
  (engine_commits_at_most_one_reservation SeatPref.generalFirst "SRT" [0]
    [⟨SearchOutcome.ok [⟨false, false, false⟩], false, RailError.other, true, true, true, true⟩,
     ⟨SearchOutcome.ok [⟨true, false, false⟩], true, RailError.other, true, true, true, true⟩]
    (by decide)).1

/-- C5 (counterexample to the claim as stated): a raising notification send
after a successful reservation re-enters the loop's generic error handling;
when the user confirms, the engine issues a further search after the first
successful reservation — the run is not terminal on success. -/
theorem reservation_not_terminal_counterexample :
    runLoop SeatPref.generalFirst "SRT" [0]
      [⟨SearchOutcome.ok [⟨false, true, false⟩], true, RailError.other, false, true, true, true⟩,
       ⟨SearchOutcome.ok [⟨false, false, false⟩], false, RailError.other, true, true, true, true⟩]
      = ([Event.search, Event.reserveAttempt 0, Event.reserveSuccess, Event.notifyFailed,
          Event.errorShown, Event.notifySent, Event.prompt true, Event.relogin,
          Event.search, Event.sleep], RunResult.outOfFuel)
    ∧ Event.search ∈ eventsAfterFirstSuccess
        (runLoop SeatPref.generalFirst "SRT" [0]
          [⟨SearchOutcome.ok [⟨false, true, false⟩], true, RailError.other, false, true, true, true⟩,
           ⟨SearchOutcome.ok [⟨false, false, false⟩], false, RailError.other, true, true, true, true⟩]).1 := by
  decide

/-- C6 (amended): a failure with no recognised pattern is surfaced to the
user (`print`) and to the notification collaborator, and polling continues
only on the user's explicit confirmation — a non-confirmation aborts the run.
An access-pattern-flagged SRT failure, however, is NOT surfaced and NOT
confirmed: the engine clears the session and retries silently. -/
theorem unrecognized_error_requires_confirmation (e : RailError) (c : CycleEnv) :
    (isUnrecognizedConfirm e = true → c.notifyOk2 = true →
      Event.errorShown ∈ (dispatchError e c).1
      ∧ Event.notifySent ∈ (dispatchError e c).1
      ∧ Event.prompt c.confirmContinue ∈ (dispatchError e c).1
      ∧ (c.confirmContinue = false → (dispatchError e c).2 = some RunResult.aborted)
      ∧ (c.confirmContinue = true → (dispatchError e c).2 = none))
    ∧ (∀ msg : String, containsSub msg accessPatternMsg = true →
        dispatchError (RailError.srt msg) c = ([Event.sessionClear, Event.sleep], none)) := by
  constructor
  · intro hu hn2
    have hhe : handleErrorCall c
        = ([Event.errorShown, Event.notifySent, Event.prompt c.confirmContinue],
           some c.confirmContinue) := by
      unfold handleErrorCall
      rw [if_pos hn2]
    rcases e with msg | msg | _ | _ | _
    · simp only [isUnrecognizedConfirm, Bool.and_eq_true, Bool.not_eq_true'] at hu
      obtain ⟨⟨ha, hr⟩, ht⟩ := hu
      unfold dispatchError
      dsimp only
      rw [ha, hr, ht]
      rw [hhe]
      cases hc : c.confirmContinue <;> simp
    · simp only [isUnrecognizedConfirm, Bool.not_eq_true'] at hu
      unfold dispatchError
      dsimp only
      rw [hu]
      rw [hhe]
      cases hc : c.confirmContinue <;> simp
    · simp [isUnrecognizedConfirm] at hu
    · unfold dispatchError
      dsimp only
      rw [hhe]
      cases hc : c.confirmContinue <;> simp
    · unfold dispatchError
      dsimp only
      rw [hhe]
      cases hc : c.confirmContinue <;> simp
  · intro msg hacc
    unfold dispatchError
    dsimp only
    rw [hacc]
    simp

/-- Closed instance of `unrecognized_error_requires_confirmation`: an
unclassified SRT failure with a declined confirmation aborts the run, with
both hypotheses discharged on concrete values. -/
theorem unrecognized_error_requires_confirmation_witness :
    (dispatchError (RailError.srt "정체불명 오류")
      ⟨SearchOutcome.ok [], false, RailError.other, true, true, false, true⟩).2
      = some RunResult.aborted :=
  ((unrecognized_error_requires_confirmation (RailError.srt "정체불명 오류")
    ⟨SearchOutcome.ok [], false, RailError.other, true, true, false, true⟩).1
    (by decide) (by decide)).2.2.2.1 (by decide)

/-- C6 (counterexample to the claim as stated): on an access-pattern-flagged
failure (`"정상적인 경로로 접근 부탁드립니다"`), the engine clears the session
and keeps polling with no notification, no message to the user and no
confirmation prompt — the claim's "continues polling only if the user
explicitly confirms" is false for this failure class. -/
theorem access_flagged_failure_retries_silently :
    runLoop SeatPref.generalFirst "SRT" []
      [⟨SearchOutcome.err (RailError.srt accessPatternMsg), false, RailError.other,
         true, true, true, true⟩,
       ⟨SearchOutcome.ok [], false, RailError.other, true, true, true, true⟩]
      = ([Event.search, Event.sessionClear, Event.sleep, Event.search, Event.sleep],
         RunResult.outOfFuel)
    ∧ (∀ b : Bool, Event.prompt b ∉
        (runLoop SeatPref.generalFirst "SRT" []
          [⟨SearchOutcome.err (RailError.srt accessPatternMsg), false, RailError.other,
             true, true, true, true⟩,
           ⟨SearchOutcome.ok [], false, RailError.other, true, true, true, true⟩]).1)
    ∧ Event.notifySent ∉
        (runLoop SeatPref.generalFirst "SRT" []
          [⟨SearchOutcome.err (RailError.srt accessPatternMsg), false, RailError.other,
             true, true, true, true⟩,
           ⟨SearchOutcome.ok [], false, RailError.other, true, true, true, true⟩]).1
    ∧ Event.errorShown ∉
        (runLoop SeatPref.generalFirst "SRT" []
          [⟨SearchOutcome.err (RailError.srt accessPatternMsg), false, RailError.other,
             true, true, true, true⟩,
           ⟨SearchOutcome.ok [], false, RailError.other, true, true, true, true⟩]).1 := by
  decide

/-- C7 (the code against the claim): a notification failure propagates into
the engine's control flow.  In `_reserve` the telegram send is unguarded, so
after a SUCCESSFUL reservation a raising send falls into the generic
`except Exception` handler: the engine prompts, and on confirmation re-logins
and resumes polling — committing a SECOND reservation here — while on
non-confirmation it aborts a run whose reservation already succeeded. -/
theorem notification_failure_escapes_into_control_flow :
    runLoop SeatPref.generalFirst "SRT" [0]
      [⟨SearchOutcome.ok [⟨true, false, false⟩], true, RailError.other, false, true, true, true⟩,
       ⟨SearchOutcome.ok [⟨true, false, false⟩], true, RailError.other, true, true, true, true⟩]
      = ([Event.search, Event.reserveAttempt 0, Event.reserveSuccess, Event.notifyFailed,
          Event.errorShown, Event.notifySent, Event.prompt true, Event.relogin,
          Event.search, Event.reserveAttempt 0, Event.reserveSuccess, Event.notifySent],
         RunResult.success)
    ∧ (runLoop SeatPref.generalFirst "SRT" [0]
        [⟨SearchOutcome.ok [⟨true, false, false⟩], true, RailError.other, false, true, true, true⟩,
         ⟨SearchOutcome.ok [⟨true, false, false⟩], true, RailError.other, true, true, true, true⟩]).1.count
        Event.reserveSuccess = 2
    ∧ runLoop SeatPref.generalFirst "SRT" [0]
        [⟨SearchOutcome.ok [⟨true, false, false⟩], true, RailError.other, false, true, false, true⟩]
      = ([Event.search, Event.reserveAttempt 0, Event.reserveSuccess, Event.notifyFailed,
          Event.errorShown, Event.notifySent, Event.prompt false], RunResult.aborted) := by
  decide

/-- C9: the passenger-count gate.  A total count of 0 or of 10 and above
aborts the run before any search or reservation call (the trace is empty);
with a total in 1..9 the run proceeds and the pre-selection search is
issued. -/
theorem passenger_count_gate (info : PassengerInfo) (pref : SeatPref)
    (rt : String) (choice : List Nat) (initialTrains : List Train)
    (env : List CycleEnv) :
    ((buildPassengers info).2 = 0 ∨ (buildPassengers info).2 ≥ 10 →
      reserveRun info pref rt choice initialTrains env = ([], RunResult.aborted))
    ∧ (1 ≤ (buildPassengers info).2 → (buildPassengers info).2 ≤ 9 →
      ∃ tail r, reserveRun info pref rt choice initialTrains env
        = (Event.search :: tail, r)) := by
  constructor
  · intro h
    unfold reserveRun
    rcases h with h0 | h10
    · rw [if_pos h0]
    · rw [if_neg (by omega), if_pos h10]
  · intro h1 h9
    unfold reserveRun
    rw [if_neg (by omega), if_neg (by omega)]
    by_cases hit : initialTrains.isEmpty = true
    · rw [if_pos hit]
      exact ⟨[], RunResult.aborted, rfl⟩
    · rw [if_neg hit]
      by_cases hch : choice.isEmpty = true
      · rw [if_pos hch]
        exact ⟨[], RunResult.aborted, rfl⟩
      · rw [if_neg hch]
        exact ⟨(runLoop pref rt choice env).1, (runLoop pref rt choice env).2, rfl⟩

/-- Closed instance of `passenger_count_gate`: a zero-passenger composition
aborts with an empty trace, with the hypothesis discharged concretely. -/
theorem passenger_count_gate_witness :
    reserveRun ⟨0, none, none, none, none⟩ SeatPref.generalFirst "SRT" [] [] []
      = ([], RunResult.aborted) :=
  (passenger_count_gate ⟨0, none, none, none, none⟩ SeatPref.generalFirst "SRT" [] [] []).1
    (Or.inl (by decide))
